import Mathlib

/-!
Verification development for the multilingual text summarizer
(`summarizer.py`).  The Python source is shallowly embedded below:

* pure helpers (`pyStrip`, `countNL`, `pyJoin`, `pyNlargest`, …) model the
  corresponding Python string/heap operations;
* the linguistic toolkit (nltk sentence/word tokenization, stemming, and the
  per-sentence `TfidfVectorizer.fit_transform([stemmed]).sum()` call) is an
  external collaborator and is modelled as an abstract `Toolkit` record — the
  score of a sentence is a function of the stopword language and of that one
  sentence's normalized text, exactly as in the source, where the vectorizer
  is freshly fitted on the singleton list `[stemmed_sentence]`;
* the chunk buffer loop of `__summary_file` is a fold over the file's lines;
* `process_file` and its collaborators (`chardet`, `langdetect`, codecs,
  the file system) are modelled with an explicit environment `PyEnv`, with
  exceptions as an `Except` channel that `processFile` catches.
-/

namespace Summarizer

/-- `LANG = frozenset(["en", "ru"])` from the source. -/
def LANG : List String := ["en", "ru"]

/-- `BUFFER_LIMIT = 1000` from the source. -/
def BUFFER_LIMIT : Nat := 1000

/-- `ALLOWED_FILE_EXTENTIONS = frozenset([".txt"])` from the source (sic). -/
def ALLOWED_FILE_EXTENTIONS : List String := [".txt"]

/-- Characters stripped by Python `str.strip()` (ASCII range; the source
only ever strips decoded text lines). -/
def isPySpace (c : Char) : Bool :=
  c = ' ' || c = '\t' || c = '\n' || c = '\r' || c = '\x0b' || c = '\x0c'

/-- Python `s.strip()`. -/
def pyStrip (s : String) : String :=
  String.mk (((s.data.dropWhile isPySpace).reverse.dropWhile isPySpace).reverse)

/-- Python `s.count('\n')` — number of newline characters in a string. -/
def countNL (s : String) : Nat :=
  s.data.count '\n'

/-- Python `sep.join(list)`. -/
def pyJoin (sep : String) : List String → String
  | [] => ""
  | [s] => s
  | s :: rest => s ++ sep ++ pyJoin sep rest

/-- Concatenation of the strings successively written to the output file. -/
def concatAll : List String → String
  | [] => ""
  | s :: rest => s ++ concatAll rest

/-- Insertion step of a stable descending sort by key `f`: the inserted
element `x` is placed before the first element whose key is `≤ f x`, hence
after every strictly larger key and before equal keys that originally came
later. -/
def insertDesc (f : Nat → Int) (x : Nat) : List Nat → List Nat
  | [] => [x]
  | y :: ys => if f y ≤ f x then x :: y :: ys else y :: insertDesc f x ys

/-- Stable sort in descending key order, processing the earliest element
last so that it ends up before later elements with an equal key — the order
produced by Python `sorted(l, key=f, reverse=True)`. -/
def sortDesc (f : Nat → Int) : List Nat → List Nat
  | [] => []
  | x :: xs => insertDesc f x (sortDesc f xs)

/-- Python `heapq.nlargest(n, l, key=f)`, documented as equivalent to
`sorted(l, key=f, reverse=True)[:n]`. -/
def pyNlargest (n : Nat) (l : List Nat) (f : Nat → Int) : List Nat :=
  (sortDesc f l).take n

/-- The external linguistic toolkit used by `__luhn_summarizer`:
`sentTokenize` is `nltk.sent_tokenize`; `normalize` is the composite of
lines 78–79 of the source (punctuation removal, lowering, word tokenization,
stemming of alphanumeric tokens, re-joining); `score` is line 80, the sum of
the tf-idf matrix obtained by fitting a fresh vectorizer (configured with the
stopword list of the given stopword language) on the singleton list holding
the one normalized sentence.  Scores are abstract scalars ordered as `Int`. -/
structure Toolkit where
  sentTokenize : String → List String
  normalize : String → String
  score : String → String → Int

/-- `__select_stopword_lang` from the source: `{'ru': 'russian',
'en': 'english'}` with fallback `'english'`. -/
def selectStopwordLang (lang : String) : String :=
  if lang = "ru" then "russian"
  else if lang = "en" then "english"
  else "english"

/-- The per-sentence scores of line 76–80: each sentence is normalized and
scored independently of the other sentences of the chunk. -/
def luhnScores (T : Toolkit) (lang : String) (text : String) : List Int :=
  (T.sentTokenize text).map (fun s => T.score (selectStopwordLang lang) (T.normalize s))

/-- The key function `sentence_scores.get` passed to `nlargest`. -/
def scoresFun (T : Toolkit) (lang : String) (text : String) : Nat → Int :=
  fun i => (luhnScores T lang text).getD i 0

/-- Line 83: `selected_sentences = nlargest(num_sentences, sentence_scores,
key=sentence_scores.get)`; iterating the dict yields the keys
`0 … len(sentences) - 1` in insertion order. -/
def luhnSelected (T : Toolkit) (text : String) (num : Nat) (lang : String) : List Nat :=
  pyNlargest num (List.range (T.sentTokenize text).length) (scoresFun T lang text)

/-- Line 86: `' '.join([sentences[i] for i in selected_sentences])`. -/
def luhnStr (T : Toolkit) (text : String) (num : Nat) (lang : String) : String :=
  pyJoin " " ((luhnSelected T text num lang).map (fun i => (T.sentTokenize text).getD i ""))

/-- Errors raised by the Python program, with the messages `print(e)` shows
(messages abbreviated to their gist). -/
inductive PyError where
  | fileNotFound (path : String)
  | wrongExtension
  | wrongLanguage
  | typeErrorDecodeNone
  | typeErrorDetectNone
  | langDetectFailure
deriving DecidableEq

/-- The string printed for each error by `print(e)` in `process_file`. -/
def errMsg : PyError → String
  | .fileNotFound p => "No file: " ++ p
  | .wrongExtension => "Wrong extenstion"
  | .wrongLanguage => "Wrong language"
  | .typeErrorDecodeNone => "decode argument encoding must be str, not None"
  | .typeErrorDetectNone => "expected string or bytes-like object"
  | .langDetectFailure => "No features in text"

/-- `__luhn_summarizer`: raises `NotImplementedError('Wrong language')` when
the language is unsupported, otherwise produces the joined summary. -/
def luhnSummarizer (T : Toolkit) (text : String) (num : Nat) (lang : String) :
    Except PyError String :=
  if lang ∈ LANG then .ok (luhnStr T text num lang) else .error .wrongLanguage

/-- Lines 116–118 / 130–132: `senences_amount = int(CONTENT_AMOUNT *
buffer.count('\n')); if senences_amount <= 0: senences_amount = 1`.
`CONTENT_AMOUNT` is the float `0.3`; `int(0.3 * n)` computed in IEEE double
agrees with `⌊3n/10⌋` for every `n` below `2 ^ 50` (the nearest double to
`0.3` is `0.3·(1 - δ)` with `δ ≈ 3.7e-17`, smaller than the relative
half-ulp `2 ^ (-54)`, so the rounded product hits the exact multiple when
`10 ∣ 3n` and truncation is unaffected otherwise), so the embedding uses
exact natural division. -/
def targetCount (n : Nat) : Nat :=
  let t := 3 * n / 10
  if t ≤ 0 then 1 else t

/-- One flushed chunk: the buffer content handed to `__luhn_summarizer` and
the sentence count requested from it. -/
structure FlushRec where
  chunk : String
  target : Nat
deriving DecidableEq

/-- Lines 111–125, one iteration: append the line to the buffer; if the
buffer's newline count exceeds `BUFFER_LIMIT`, summarize and reset it. -/
def stepLine (buf line : String) : String × Option FlushRec :=
  let b := buf ++ line
  if BUFFER_LIMIT < countNL b then ("", some ⟨b, targetCount (countNL b)⟩)
  else (b, none)

/-- The accumulation loop of `__summary_file`: returns the leftover buffer
and the chunks flushed inside the loop, in order. -/
def runLines (buf : String) : List String → String × List FlushRec
  | [] => (buf, [])
  | l :: ls =>
    let s := stepLine buf l
    let r := runLines s.1 ls
    (r.1, s.2.toList ++ r.2)

/-- Newline count of the buffer observed right after each append (line 114
evaluates `buffer.count('\n')` on the grown buffer before deciding whether
to flush) — the peak of this trace is the peak buffered content. -/
def newlineTrace (buf : String) : List String → List Nat
  | [] => []
  | l :: ls => countNL (buf ++ l) :: newlineTrace (stepLine buf l).1 ls

/-- Largest buffered newline count ever observed while processing `lines`. -/
def peakNewlines (lines : List String) : Nat :=
  (newlineTrace "" lines).foldr max 0

/-- All chunks summarized by `__summary_file` for the given text lines:
the in-loop flushes followed by the final flush of a non-empty leftover
buffer (lines 128–136). -/
def summaryWrites (lines : List String) : List FlushRec :=
  let r := runLines "" lines
  r.2 ++ (if r.1 = "" then [] else [⟨r.1, targetCount (countNL r.1)⟩])

/-- `os.path.splitext`: split off the extension at the last `'.'` occurring
after the last `'/'`, provided the basename part before that dot contains a
character other than `'.'` (leading dots of a basename never start an
extension).  Implemented on the reversed character list, where the last dot
of the basename is the first dot before any slash. -/
def pySplitext (p : String) : String × String :=
  let cs := p.data.reverse
  let rBase := cs.takeWhile (fun c => c != '/')
  if rBase.any (fun c => c == '.') then
    let k := rBase.findIdx (fun c => c == '.')
    if (rBase.drop (k + 1)).any (fun c => c != '.') then
      (String.mk ((cs.drop (k + 1)).reverse), String.mk ((cs.take (k + 1)).reverse))
    else (p, "")
  else (p, "")

/-- `__get_file_extension` from the source. -/
def getFileExtension (p : String) : String :=
  (pySplitext p).2

/-- `__allowed_extenstion` from the source (sic). -/
def allowedExtension (p : String) : Bool :=
  ALLOWED_FILE_EXTENTIONS.contains (getFileExtension p)

/-- Python `str.replace(pat, rep)` on character lists: replace every
non-overlapping occurrence left to right.  `fuel` bounds the recursion by
the length of the scanned list; each step consumes at least one character. -/
def pyReplaceAux (pat rep : List Char) : Nat → List Char → List Char
  | 0, l => l
  | _ + 1, [] => []
  | fuel + 1, c :: cs =>
    if pat.isPrefixOf (c :: cs) && !pat.isEmpty then
      rep ++ pyReplaceAux pat rep fuel (cs.drop (pat.length - 1))
    else c :: pyReplaceAux pat rep fuel cs

/-- Python `str.replace(pat, rep)`. -/
def pyReplaceL (pat rep l : List Char) : List Char :=
  pyReplaceAux pat rep l.length l

/-- Line 107: the output path `file_path.replace('.txt', '_abstract.txt')`
— note that Python `str.replace` rewrites every occurrence of `'.txt'` in
the path, not only the final extension. -/
def codeOutputPath (p : String) : String :=
  String.mk (pyReplaceL ".txt".data "_abstract.txt".data p.data)

/-- Modelled from the spec: the output path the specification describes,
"`<path without extension>_abstract.txt` alongside the input" — the input
path with its extension removed and `_abstract.txt` appended. -/
def specOutputPath (p : String) : String :=
  (pySplitext p).1 ++ "_abstract.txt"

/-- Outcome of one Python `line.decode(enc)` call. -/
inductive DecOutcome where
  | ok (s : String)
  | unicodeError
  | typeError
deriving DecidableEq

/-- Result of the inner encoding loop of `__get_first_line` for one line. -/
inductive TryOut where
  | fatal
  | found (s : String)
  | exhausted (decodedAny : Bool)
deriving DecidableEq

/-- The environment of external collaborators of `process_file`: the file
system (`files` maps a path to the raw byte lines of the file), the named
codecs other than latin-1 (`dec`, `none` meaning `UnicodeDecodeError`),
`langdetect.detect` (`none` meaning `LangDetectException`), `chardet.detect`
on raw bytes and on an encoded string (`none` meaning a null detected
encoding, which the spec's detector contract allows), and text-mode reading
of a file under a chosen encoding (`readLines path encoding`). -/
structure PyEnv where
  files : List (String × List (List Nat))
  dec : String → List Nat → Option String
  langdetect : String → Option String
  chardetBytes : List Nat → Option String
  chardetStr : String → Option String
  readLines : String → Option String → List String

/-- Python `bytes.decode('latin-1')`: total, each byte maps to the code
point of the same value. -/
def latin1Decode (bs : List Nat) : String :=
  String.mk (bs.map (fun b => Char.ofNat (b % 256)))

/-- One decode attempt: `line.decode(None)` raises `TypeError` (only
`UnicodeDecodeError` is caught by the source's handler); latin-1 never
fails; other named codecs behave as the environment says. -/
def pyDecode (env : PyEnv) (enc : Option String) (bs : List Nat) : DecOutcome :=
  match enc with
  | none => .typeError
  | some e =>
    if e = "latin-1" then .ok (latin1Decode bs)
    else
      match env.dec e bs with
      | some s => .ok s
      | none => .unicodeError

/-- The line printed for a caught `UnicodeDecodeError` (line 228). -/
def encLog (e : String) : String :=
  "Error decoding line in " ++ e ++ " encoding"

/-- The encodings tried for one line (line 216):
`[detected, 'utf-8', 'latin-1']`. -/
def encsFor (env : PyEnv) (bs : List Nat) : List (Option String) :=
  [env.chardetBytes bs, some "utf-8", some "latin-1"]

/-- One iteration of the inner loop of `__get_first_line` (lines 218–228),
given the outcome `d` of the decode attempt and the result `rr` of the
remaining candidates: a `UnicodeDecodeError` is logged and the next
candidate tried; a successful decode whose stripped text is non-empty is
returned; a successful blank decode marks the line as decoded and moves on;
decoding with a null encoding raises `TypeError`, which nothing in the
function catches. -/
def tryStep (enc : Option String) (d : DecOutcome) (rr : List String × TryOut) :
    List String × TryOut :=
  match d with
  | .typeError => ([], .fatal)
  | .unicodeError =>
    ((match enc with | some e => [encLog e] | none => []) ++ rr.1, rr.2)
  | .ok s =>
    if pyStrip s = "" then (rr.1, match rr.2 with | .exhausted _ => .exhausted true | x => x)
    else ([], .found (pyStrip s))

/-- The inner loop of `__get_first_line` over the encoding candidates. -/
def tryEncodings (env : PyEnv) (bs : List Nat) : List (Option String) → List String × TryOut
  | [] => ([], .exhausted false)
  | enc :: rest => tryStep enc (pyDecode env enc bs) (tryEncodings env bs rest)

/-- One iteration of the line loop of `__get_first_line`, given the inner
loop's result `t` on the current line and the result `r` of the remaining
lines. -/
def lineStep (t : List String × TryOut) (r : List String × Except PyError (Option String)) :
    List String × Except PyError (Option String) :=
  match t.2 with
  | .fatal => (t.1, .error .typeErrorDecodeNone)
  | .found s => (t.1, .ok (some s))
  | .exhausted decodedAny =>
    (t.1 ++ (if decodedAny then [] else ["Unable to decode the line with any of the encodings"])
      ++ r.1, r.2)

/-- `__get_first_line` (lines 206–233): scan the byte lines; return the
first stripped non-empty decoded line; lines decodable only to blank text
are skipped (with an extra print if no encoding decoded them at all); an
uncaught `TypeError` aborts the scan; a file with no returnable line falls
off the loop and returns `None`. -/
def getFirstLine (env : PyEnv) : List (List Nat) → List String × Except PyError (Option String)
  | [] => ([], .ok none)
  | bs :: rest => lineStep (tryEncodings env bs (encsFor env bs)) (getFirstLine env rest)

/-- `__get_message_lang`: `langdetect.detect` raises a `TypeError` on
`None` and a `LangDetectException` when it finds no features; a detected
language outside `LANG` is coerced to `'en'`. -/
def getMessageLang (env : PyEnv) : Option String → Except PyError String
  | none => .error .typeErrorDetectNone
  | some s =>
    match env.langdetect s with
    | none => .error .langDetectFailure
    | some l => .ok (if l ∈ LANG then l else "en")

/-- `__get_message_encoding`: `chardet.detect(message.encode())['encoding']`
(never raises; may be a null encoding). -/
def getMessageEncoding (env : PyEnv) : Option String → Option String
  | none => none
  | some s => env.chardetStr s

/-- The file written by `__summary_file`: its path and full content. -/
structure FileWrite where
  path : String
  content : String
deriving DecidableEq

/-- `__summary_file` (lines 89–136): reject an unsupported language, then
read the input's lines, run the buffered loop, and write one summary line
per flushed chunk to `file_path.replace('.txt', '_abstract.txt')`. -/
def summaryFileRun (T : Toolkit) (env : PyEnv) (path lang : String)
    (encoding : Option String) : Except PyError FileWrite :=
  if lang ∈ LANG then
    let lines := env.readLines path encoding
    .ok ⟨codeOutputPath path,
      concatAll ((summaryWrites lines).map (fun w => luhnStr T w.chunk w.target lang ++ "\n"))⟩
  else .error .wrongLanguage

/-- The body of `process_file`'s `try` block (lines 244–252): existence
check, extension check, first-line sampling, language and encoding
detection, then summarization.  Returns the prints emitted so far together
with either the file written or the exception raised. -/
def processFileAttempt (T : Toolkit) (env : PyEnv) (path : String) :
    List String × Except PyError FileWrite :=
  match env.files.lookup path with
  | none => ([], .error (.fileNotFound path))
  | some byteLines =>
    if allowedExtension path then
      let g := getFirstLine env byteLines
      match g.2 with
      | .error e => (g.1, .error e)
      | .ok line =>
        match getMessageLang env line with
        | .error e => (g.1, .error e)
        | .ok lang => (g.1, summaryFileRun T env path lang (getMessageEncoding env line))
    else ([], .error .wrongExtension)

/-- `process_file` (lines 235–254): run the body; any exception is caught,
printed, and swallowed — the function always returns normally, an error
leaving only a printed message and no written file. -/
def processFile (T : Toolkit) (env : PyEnv) (path : String) :
    List String × Option FileWrite :=
  let a := processFileAttempt T env path
  match a.2 with
  | .ok w => (a.1, some w)
  | .error e => (a.1 ++ [errMsg e], none)

/-- A trivial concrete toolkit instance used by witnesses. -/
def Ttriv : Toolkit :=
  ⟨fun t => [pyStrip t], id, fun _ s => Int.ofNat s.length⟩

/-- Toolkit whose chunks segment into `S0, S1, S2` scored `1, 5, 3`. -/
def Tex : Toolkit :=
  ⟨fun _ => ["S0", "S1", "S2"], id,
    fun _ s => if s = "S1" then 5 else if s = "S2" then 3 else 1⟩

/-- Toolkit whose chunks segment into `S0, S1, S2` scored `1, 3, 5`. -/
def Tex2 : Toolkit :=
  ⟨fun _ => ["S0", "S1", "S2"], id,
    fun _ s => if s = "S2" then 5 else if s = "S1" then 3 else 1⟩

/-- Toolkit putting a shared sentence at the head of every chunk. -/
def Tcommon : Toolkit :=
  ⟨fun t => ["common", t], id, fun _ s => Int.ofNat s.length⟩

/-- Environment with no files at all. -/
def envEmpty : PyEnv :=
  ⟨[], fun _ _ => none, fun _ => none, fun _ => none, fun _ => none, fun _ _ => []⟩

/-- Environment holding `a.txt.txt` with content line `Hi\n` (bytes
`72 105 10`), everything detected as ascii/English. -/
def envHi : PyEnv :=
  ⟨[("a.txt.txt", [[72, 105, 10]])],
    fun e _ => if e = "ascii" then some "Hi\n" else none,
    fun _ => some "en",
    fun _ => some "ascii",
    fun _ => some "ascii",
    fun _ _ => ["Hi\n"]⟩

/-- Environment holding `b.txt` consisting of one blank line (byte `10`),
with every named codec decoding it to a newline. -/
def envBlank : PyEnv :=
  ⟨[("b.txt", [[10]])],
    fun _ _ => some "\n",
    fun _ => some "en",
    fun _ => some "ascii",
    fun _ => some "ascii",
    fun _ _ => []⟩

/-- Environment holding `c.txt` whose first line (bytes `0 10`) gets a null
detected encoding from `chardet`. -/
def envNullEnc : PyEnv :=
  ⟨[("c.txt", [[0, 10]])],
    fun _ _ => none,
    fun _ => none,
    fun _ => none,
    fun _ => none,
    fun _ _ => []⟩

/-! ### Helper lemmas -/

theorem targetCount_eq (n : Nat) : targetCount n = max 1 (3 * n / 10) := by
  unfold targetCount
  by_cases h : 3 * n / 10 ≤ 0
  · simp [h]
    omega
  · simp [h]
    omega

theorem countNL_append (a b : String) : countNL (a ++ b) = countNL a + countNL b := by
  simp [countNL, String.data_append, List.count_append]

theorem length_insertDesc (f : Nat → Int) (x : Nat) (l : List Nat) :
    (insertDesc f x l).length = l.length + 1 := by
  induction l with
  | nil => rfl
  | cons y ys ih =>
    unfold insertDesc
    by_cases h : f y ≤ f x <;> simp [h, ih]

theorem length_sortDesc (f : Nat → Int) (l : List Nat) :
    (sortDesc f l).length = l.length := by
  induction l with
  | nil => rfl
  | cons x xs ih => simp [sortDesc, length_insertDesc, ih]

theorem mem_insertDesc (f : Nat → Int) (x a : Nat) (l : List Nat) :
    a ∈ insertDesc f x l ↔ a = x ∨ a ∈ l := by
  induction l with
  | nil => simp [insertDesc]
  | cons y ys ih =>
    unfold insertDesc
    by_cases h : f y ≤ f x
    · simp [h]
    · simp [h, ih]
      tauto

theorem mem_sortDesc (f : Nat → Int) (a : Nat) (l : List Nat) :
    a ∈ sortDesc f l ↔ a ∈ l := by
  induction l with
  | nil => simp [sortDesc]
  | cons x xs ih => simp [sortDesc, mem_insertDesc, ih]

theorem chain'_insertDesc (f : Nat → Int) (x : Nat) (l : List Nat)
    (h : List.Chain' (fun a b => f b ≤ f a) l) :
    List.Chain' (fun a b => f b ≤ f a) (insertDesc f x l) := by
  induction l with
  | nil => simp [insertDesc]
  | cons y ys ih =>
    unfold insertDesc
    by_cases hxy : f y ≤ f x
    · rw [if_pos hxy]
      exact List.chain'_cons.mpr ⟨hxy, h⟩
    · have htail := ih (h.tail)
      cases ys with
      | nil =>
        rw [if_neg hxy]
        refine List.chain'_pair.mpr ?_
        show f x ≤ f y
        omega
      | cons z zs =>
        rw [if_neg hxy]
        unfold insertDesc at htail ⊢
        by_cases hzx : f z ≤ f x
        · rw [if_pos hzx] at htail ⊢
          exact List.Chain'.cons (by omega) htail
        · rw [if_neg hzx] at htail ⊢
          exact List.Chain'.cons (List.chain'_cons.mp h).1 htail

theorem chain'_sortDesc (f : Nat → Int) (l : List Nat) :
    List.Chain' (fun a b => f b ≤ f a) (sortDesc f l) := by
  induction l with
  | nil => simp [sortDesc]
  | cons x xs ih => exact chain'_insertDesc f x _ ih

theorem le_foldr_max (l : List Nat) (a : Nat) (h : a ∈ l) : a ≤ l.foldr max 0 := by
  induction l with
  | nil => cases h
  | cons b bs ih =>
    rcases List.mem_cons.mp h with rfl | hbs
    · exact Nat.le_max_left _ _
    · exact Nat.le_trans (ih hbs) (Nat.le_max_right _ _)

theorem foldr_max_le (l : List Nat) (m : Nat) (h : ∀ a ∈ l, a ≤ m) :
    l.foldr max 0 ≤ m := by
  induction l with
  | nil => exact Nat.zero_le m
  | cons b bs ih =>
    exact Nat.max_le.mpr ⟨h b (List.mem_cons_self b bs), ih fun a ha => h a (List.mem_cons_of_mem b ha)⟩

theorem runLines_writes_target (lines : List String) :
    ∀ buf, ∀ w ∈ (runLines buf lines).2, w.target = targetCount (countNL w.chunk) := by
  induction lines with
  | nil => intro buf w hw; simp [runLines] at hw
  | cons l ls ih =>
    intro buf w hw
    simp only [runLines] at hw
    rcases List.mem_append.mp hw with hmem | hmem
    · unfold stepLine at hmem
      by_cases hc : BUFFER_LIMIT < countNL (buf ++ l)
      · simp [hc] at hmem
        subst hmem
        rfl
      · simp [hc] at hmem
    · exact ih (stepLine buf l).1 w hmem

theorem summaryWrites_target (lines : List String) :
    ∀ w ∈ summaryWrites lines, w.target = targetCount (countNL w.chunk) := by
  intro w hw
  unfold summaryWrites at hw
  rcases List.mem_append.mp hw with hmem | hmem
  · exact runLines_writes_target lines "" w hmem
  · by_cases hb : (runLines "" lines).1 = ""
    · simp [hb] at hmem
    · simp [hb] at hmem
      subst hmem
      rfl

theorem stepLine_fst (buf l : String) :
    (stepLine buf l).1 = if BUFFER_LIMIT < countNL (buf ++ l) then "" else buf ++ l := by
  by_cases h : BUFFER_LIMIT < countNL (buf ++ l) <;> simp [stepLine, h]

theorem newlineTrace_replicate (n : Nat) :
    ∀ buf : String, countNL buf + n ≤ BUFFER_LIMIT + 1 →
      newlineTrace buf (List.replicate n "a\n") =
        (List.range n).map (fun i => countNL buf + i + 1) := by
  induction n with
  | zero => intro buf _; simp [newlineTrace]
  | succ m ih =>
    intro buf h
    have hc : countNL (buf ++ "a\n") = countNL buf + 1 := by
      rw [countNL_append]; rfl
    rw [List.replicate_succ]
    unfold newlineTrace
    rw [stepLine_fst]
    by_cases hfl : BUFFER_LIMIT < countNL (buf ++ "a\n")
    · have hm : m = 0 := by
        rw [hc] at hfl
        omega
      subst hm
      rw [show List.range 1 = [0] from rfl]
      simp [hfl, newlineTrace, hc]
    · rw [if_neg hfl]
      have h2 : countNL (buf ++ "a\n") + m ≤ BUFFER_LIMIT + 1 := by
        rw [hc]
        omega
      rw [ih (buf ++ "a\n") h2, hc]
      rw [List.range_succ_eq_map, List.map_cons, List.map_map]
      have hfn : (fun i => countNL buf + 1 + i + 1)
          = (fun i => countNL buf + i + 1) ∘ Nat.succ := by
        funext i
        simp [Function.comp]
        omega
      rw [hfn]

theorem newlineTrace_bound (lines : List String) :
    ∀ buf, countNL buf ≤ BUFFER_LIMIT → (∀ l ∈ lines, countNL l ≤ 1) →
      ∀ c ∈ newlineTrace buf lines, c ≤ BUFFER_LIMIT + 1 := by
  induction lines with
  | nil => intro buf _ _ c hc; simp [newlineTrace] at hc
  | cons l ls ih =>
    intro buf hbuf hl c hc
    unfold newlineTrace at hc
    rcases List.mem_cons.mp hc with rfl | hc
    · rw [countNL_append]
      have := hl l (List.mem_cons_self l ls)
      omega
    · refine ih (stepLine buf l).1 ?_ (fun x hx => hl x (List.mem_cons_of_mem l hx)) c hc
      rw [stepLine_fst]
      by_cases hfl : BUFFER_LIMIT < countNL (buf ++ l)
      · simp [hfl]
        decide
      · rw [if_neg hfl]
        omega

theorem pyReplaceAux_nilList (pat rep : List Char) (fuel : Nat) :
    pyReplaceAux pat rep fuel [] = [] := by
  cases fuel <;> rfl

theorem pyReplaceAux_unique (pat rep : List Char) (hpat : pat ≠ []) :
    ∀ R : List Char, ∀ fuel, (R ++ pat).length ≤ fuel →
      (∀ i ∈ List.range R.length, pat.isPrefixOf ((R ++ pat).drop i) = false) →
      pyReplaceAux pat rep fuel (R ++ pat) = R ++ rep := by
  intro R
  induction R with
  | nil =>
    intro fuel hfuel _
    cases pat with
    | nil => exact absurd rfl hpat
    | cons p ps =>
      cases fuel with
      | zero => simp at hfuel
      | succ f =>
        simp only [List.nil_append]
        unfold pyReplaceAux
        have hpre : (p :: ps).isPrefixOf (p :: ps) = true :=
          List.isPrefixOf_iff_prefix.mpr (List.prefix_refl _)
        rw [hpre]
        simp only [List.isEmpty_cons, Bool.not_false, Bool.and_true, if_true]
        have hdrop : ps.drop ((p :: ps).length - 1) = [] := by
          simp
        rw [hdrop, pyReplaceAux_nilList, List.append_nil]
  | cons c R' ihR =>
    intro fuel hfuel hocc
    cases fuel with
    | zero => simp at hfuel
    | succ f =>
      simp only [List.cons_append]
      unfold pyReplaceAux
      have h0 : pat.isPrefixOf (c :: (R' ++ pat)) = false := by
        have := hocc 0 (List.mem_range.mpr (by simp))
        simpa using this
      rw [h0, Bool.false_and, if_neg Bool.false_ne_true]
      have hocc' : ∀ i ∈ List.range R'.length, pat.isPrefixOf ((R' ++ pat).drop i) = false := by
        intro i hi
        have := hocc (i + 1) (List.mem_range.mpr (by simp at hi ⊢; omega))
        simpa using this
      rw [ihR f (by simpa using hfuel) hocc']

theorem pyReplaceL_unique (pat rep : List Char) (hpat : pat ≠ []) (R : List Char)
    (hocc : ∀ i ∈ List.range R.length, pat.isPrefixOf ((R ++ pat).drop i) = false) :
    pyReplaceL pat rep (R ++ pat) = R ++ rep :=
  pyReplaceAux_unique pat rep hpat R (R ++ pat).length (Nat.le_refl _) hocc

theorem pySplitext_append (p : String) :
    (pySplitext p).1.data ++ (pySplitext p).2.data = p.data := by
  unfold pySplitext
  by_cases h1 : (p.data.reverse.takeWhile (fun c => c != '/')).any (fun c => c == '.')
  · simp only [h1, if_true]
    by_cases h2 : ((p.data.reverse.takeWhile (fun c => c != '/')).drop
        ((p.data.reverse.takeWhile (fun c => c != '/')).findIdx (fun c => c == '.') + 1)).any
        (fun c => c != '.')
    · simp only [h2, if_true]
      rw [← List.reverse_append, List.take_append_drop, List.reverse_reverse]
    · simp [h2]
  · simp [h1]

theorem allowedExtension_ext (p : String) (h : allowedExtension p = true) :
    (pySplitext p).2 = ".txt" := by
  unfold allowedExtension getFileExtension ALLOWED_FILE_EXTENTIONS at h
  simpa using h

/-- Decodability test for one decode attempt: the attempt either fails
recoverably or yields only whitespace. -/
def blankOutcome (d : DecOutcome) : Bool :=
  match d with
  | .ok s => pyStrip s == ""
  | .unicodeError => true
  | .typeError => false

theorem tryEncodings_blank (env : PyEnv) (bs : List Nat) :
    ∀ encs, (∀ enc ∈ encs, blankOutcome (pyDecode env enc bs) = true) →
      ∃ b, (tryEncodings env bs encs).2 = TryOut.exhausted b := by
  intro encs
  induction encs with
  | nil => intro _; exact ⟨false, rfl⟩
  | cons enc rest ih =>
    intro h
    have h0 := h enc (List.mem_cons_self enc rest)
    obtain ⟨b, hb⟩ := ih fun e he => h e (List.mem_cons_of_mem enc he)
    cases hd : pyDecode env enc bs with
    | typeError => rw [hd] at h0; simp [blankOutcome] at h0
    | unicodeError =>
      refine ⟨b, ?_⟩
      show (tryStep enc (pyDecode env enc bs) (tryEncodings env bs rest)).2 = _
      rw [hd]
      simpa [tryStep] using hb
    | ok s =>
      rw [hd] at h0
      have hs : pyStrip s = "" := by
        simpa [blankOutcome] using h0
      refine ⟨true, ?_⟩
      show (tryStep enc (pyDecode env enc bs) (tryEncodings env bs rest)).2 = _
      rw [hd]
      simp [tryStep, hs, hb]

theorem getFirstLine_blank (env : PyEnv) :
    ∀ bls, (∀ bs ∈ bls, ∀ enc ∈ encsFor env bs, blankOutcome (pyDecode env enc bs) = true) →
      (getFirstLine env bls).2 = .ok none := by
  intro bls
  induction bls with
  | nil => intro _; rfl
  | cons bs rest ih =>
    intro h
    obtain ⟨b, hb⟩ := tryEncodings_blank env bs (encsFor env bs)
      (h bs (List.mem_cons_self bs rest))
    show (lineStep (tryEncodings env bs (encsFor env bs)) (getFirstLine env rest)).2 = _
    unfold lineStep
    rw [hb]
    exact ih fun x hx => h x (List.mem_cons_of_mem bs hx)

/-- Helper: appending a string built from a character list. -/
theorem append_mk (s : String) (l : List Char) : s ++ String.mk l = String.mk (s.data ++ l) := by
  cases s
  rfl

/-! ### Claim theorems -/

/-- Claim C1: for every chunk flushed by the buffer controller, the number
of sentences requested from the selector equals
`max 1 (floor (0.3 * newline_count))`, and the number of sentences placed
in the summary never exceeds the number `N` of sentences the chunk segments
into; when the target reaches or exceeds `N`, every sentence index is
selected (all `N` sentences are returned, with no error channel). -/
theorem claim1_target_formula_and_bound (lines : List String) (T : Toolkit) (lang : String)
    (w : FlushRec) (hw : w ∈ summaryWrites lines) :
    w.target = max 1 (3 * countNL w.chunk / 10) ∧
    (luhnSelected T w.chunk w.target lang).length ≤ (T.sentTokenize w.chunk).length ∧
    ((T.sentTokenize w.chunk).length ≤ w.target →
      ∀ i < (T.sentTokenize w.chunk).length, i ∈ luhnSelected T w.chunk w.target lang) := by
  refine ⟨?_, ?_, ?_⟩
  · rw [summaryWrites_target lines w hw, targetCount_eq]
  · unfold luhnSelected pyNlargest
    rw [List.length_take, length_sortDesc, List.length_range]
    exact Nat.min_le_right _ _
  · intro hN i hi
    unfold luhnSelected pyNlargest
    rw [List.take_of_length_le (by rw [length_sortDesc, List.length_range]; exact hN)]
    exact (mem_sortDesc _ _ _).mpr (List.mem_range.mpr hi)

/-- Witness for C1 at the single-chunk input `["Hi\n"]`. -/
theorem claim1_witness :
    (⟨"Hi\n", 1⟩ : FlushRec) ∈ summaryWrites ["Hi\n"] ∧
    (⟨"Hi\n", 1⟩ : FlushRec).target = max 1 (3 * countNL "Hi\n" / 10) ∧
    (luhnSelected Ttriv "Hi\n" 1 "en").length ≤ (Ttriv.sentTokenize "Hi\n").length := by
  have h := claim1_target_formula_and_bound ["Hi\n"] Ttriv "en" ⟨"Hi\n", 1⟩ (by decide)
  exact ⟨by decide, h.1, h.2.1⟩

/-- Claim C2: for every chunk, the summary joins the selected sentences in
descending score order (the selected index sequence carries non-increasing
scores), not in document order; on three sentences scored `(S0, 1)`,
`(S1, 5)`, `(S2, 3)` with target 2 the summary is exactly `"S1 S2"`, and on
scores `(1, 3, 5)` it is `"S2 S1"`, not the document order `"S1 S2"`. -/
theorem claim2_score_descending_order :
    (∀ (T : Toolkit) (text : String) (num : Nat) (lang : String),
      List.Chain' (fun a b => scoresFun T lang text b ≤ scoresFun T lang text a)
        (luhnSelected T text num lang)) ∧
    luhnSummarizer Tex "doc" 2 "en" = .ok "S1 S2" ∧
    luhnSummarizer Tex2 "doc" 2 "en" = .ok "S2 S1" := by
  refine ⟨?_, rfl, rfl⟩
  intro T text num lang
  exact (chain'_sortDesc (scoresFun T lang text) (List.range _)).take num

/-- Claim C3 counterexample: on 1001 one-newline lines the buffer holds
1001 newlines at the moment the flush check runs, so the peak buffered
line count exceeds the claimed bound of `BUFFER_LIMIT = 1000`. -/
theorem claim3_counterexample :
    ¬ peakNewlines (List.replicate (BUFFER_LIMIT + 1) "a\n") ≤ BUFFER_LIMIT := by
  intro hle
  have htr := newlineTrace_replicate (BUFFER_LIMIT + 1) "" (by decide)
  have hmem : BUFFER_LIMIT + 1 ∈ newlineTrace "" (List.replicate (BUFFER_LIMIT + 1) "a\n") := by
    rw [htr]
    refine List.mem_map.mpr ⟨BUFFER_LIMIT, List.mem_range.mpr (by omega), ?_⟩
    show countNL "" + BUFFER_LIMIT + 1 = BUFFER_LIMIT + 1
    decide
  have hge := le_foldr_max _ _ hmem
  unfold peakNewlines at hle
  omega

/-- Claim C3 amended: the buffer is flushed and cleared as soon as, after
an append, its newline count exceeds 1000; since the post-step buffer never
exceeds 1000 newlines, the peak buffered newline count (observed right
after an append, before the flush check) is bounded by `threshold + 1 =
1001` — not 1000 — for any input whose lines carry at most one newline
each, regardless of total input length. -/
theorem claim3_amended_peak_bound (lines : List String) (h : ∀ l ∈ lines, countNL l ≤ 1) :
    peakNewlines lines ≤ BUFFER_LIMIT + 1 := by
  unfold peakNewlines
  exact foldr_max_le _ _ (newlineTrace_bound lines "" (by decide) h)

/-- Witness for the amended C3 on a two-line input. -/
theorem claim3_witness : peakNewlines ["one\n", "two\n"] ≤ BUFFER_LIMIT + 1 :=
  claim3_amended_peak_bound ["one\n", "two\n"] (by decide)

/-- Claim C4: when input is exhausted, exactly one extra final flush is
performed iff the leftover buffer is non-empty (an empty trailing buffer
adds no write), and that final write summarizes the leftover buffer with
the same `max 1 (floor (0.3 * newline_count))` target formula. -/
theorem claim4_final_flush (lines : List String) :
    (summaryWrites lines).length
      = (runLines "" lines).2.length + (if (runLines "" lines).1 = "" then 0 else 1) ∧
    ((runLines "" lines).1 ≠ "" →
      (summaryWrites lines).getLast?
        = some ⟨(runLines "" lines).1, max 1 (3 * countNL (runLines "" lines).1 / 10)⟩) := by
  unfold summaryWrites
  by_cases hb : (runLines "" lines).1 = ""
  · simp [hb]
  · constructor
    · simp [hb]
    · intro _
      simp [hb, List.getLast?_concat, targetCount_eq]

/-- Witness for C4 on a buffer that never crossed the threshold. -/
theorem claim4_witness : (summaryWrites ["end"]).getLast? = some ⟨"end", 1⟩ := by
  have h := (claim4_final_flush ["end"]).2 (by decide)
  rw [h]
  decide

/-- Claim C5: every error raised inside the per-file body is caught by
`process_file`, reported by appending its printed message, and swallowed:
the call returns the normal pair of prints and no written file — no
exception or failure status reaches the caller. -/
theorem claim5_errors_swallowed (T : Toolkit) (env : PyEnv) (path : String) (e : PyError)
    (h : (processFileAttempt T env path).2 = .error e) :
    processFile T env path = ((processFileAttempt T env path).1 ++ [errMsg e], none) := by
  simp [processFile, h]

/-- Witness for C5: a missing file is reported and swallowed. -/
theorem claim5_witness :
    processFile Ttriv envEmpty "x.txt" = (["No file: x.txt"], none) :=
  claim5_errors_swallowed Ttriv envEmpty "x.txt" (.fileNotFound "x.txt") rfl

/-- Claim C6 counterexample: on the accepted path `a.txt.txt` the program
writes to `a_abstract.txt_abstract.txt`, not to the spec's
`<path without extension>_abstract.txt` (which is `a.txt_abstract.txt`). -/
theorem claim6_counterexample :
    (processFile Ttriv envHi "a.txt.txt").2
      = some ⟨"a_abstract.txt_abstract.txt", "Hi\n"⟩ ∧
    "a_abstract.txt_abstract.txt" ≠ specOutputPath "a.txt.txt" :=
  ⟨rfl, by decide⟩

/-- Claim C6 amended: the output path is the input path with every
occurrence of `".txt"` replaced by `"_abstract.txt"`; for an accepted path
in which `".txt"` occurs only as the final extension this coincides with
the spec's `<path without extension>_abstract.txt`. -/
theorem claim6_amended_output_path (p : String) (hext : allowedExtension p = true)
    (huniq : ∀ i ∈ List.range (p.data.length - 4),
      ".txt".data.isPrefixOf (p.data.drop i) = false) :
    codeOutputPath p = specOutputPath p := by
  have hsplit := pySplitext_append p
  rw [allowedExtension_ext p hext] at hsplit
  set R := (pySplitext p).1.data with hR
  have hlen : p.data.length - 4 = R.length := by
    rw [← hsplit]
    simp
  have hocc : ∀ i ∈ List.range R.length,
      ".txt".data.isPrefixOf ((R ++ ".txt".data).drop i) = false := by
    intro i hi
    have h2 := huniq i (by rw [hlen]; exact hi)
    rw [← hsplit] at h2
    exact h2
  unfold codeOutputPath
  rw [← hsplit, pyReplaceL_unique ".txt".data "_abstract.txt".data (by decide) R hocc]
  unfold specOutputPath
  rw [show ("_abstract.txt" : String) = String.mk "_abstract.txt".data from rfl, append_mk]

/-- Witness for the amended C6 on the ordinary path `doc.txt`. -/
theorem claim6_witness : codeOutputPath "doc.txt" = specOutputPath "doc.txt" :=
  claim6_amended_output_path "doc.txt" (by decide) (by decide)

/-- Claim C7, evaluated at the failing input: when the byte-encoding
detector returns a null encoding for the first line (allowed by the spec's
detector contract), the first decode attempt raises a `TypeError` that is
neither logged nor caught inside the sampler — it escapes `__get_first_line`
(only the per-file handler catches it), contrary to the claim that every
failed attempt is non-fatal and logged and that no decoding error
propagates to the sampler's caller. -/
theorem claim7_null_encoding_typeerror :
    getFirstLine envNullEnc [[0, 10]] = ([], .error .typeErrorDecodeNone) ∧
    processFile Ttriv envNullEnc "c.txt" = ([errMsg .typeErrorDecodeNone], none) :=
  ⟨rfl, rfl⟩

/-- Claim C8: calling the scorer with a language outside `{en, ru}` yields
the "wrong language" error immediately, for every toolkit, text and count —
before any sentence is segmented or scored (the result does not depend on
the toolkit at all). -/
theorem claim8_unsupported_language (T : Toolkit) (text : String) (num : Nat) (lang : String)
    (h : lang ∉ LANG) : luhnSummarizer T text num lang = .error .wrongLanguage := by
  unfold luhnSummarizer
  rw [if_neg h]

/-- Witness for C8 at the unsupported language `de`. -/
theorem claim8_witness :
    ("de" ∉ LANG) ∧ luhnSummarizer Ttriv "text" 1 "de" = .error .wrongLanguage :=
  ⟨by decide, claim8_unsupported_language Ttriv "text" 1 "de" (by decide)⟩

/-- Claim C9: scoring is chunk-blind — a sentence text occurring in two
chunks receives the same score in both, because each score is a function of
that sentence's own text and the language only. -/
theorem claim9_chunk_blind_scores (T : Toolkit) (lang c1 c2 : String) (i j : Nat) (s : String)
    (h1 : (T.sentTokenize c1).get? i = some s) (h2 : (T.sentTokenize c2).get? j = some s) :
    (luhnScores T lang c1).get? i = (luhnScores T lang c2).get? j := by
  unfold luhnScores
  rw [List.get?_map, List.get?_map, h1, h2]

/-- Witness for C9: the shared head sentence of two distinct chunks. -/
theorem claim9_witness :
    (Tcommon.sentTokenize "chunk one").get? 0 = some "common" ∧
    (luhnScores Tcommon "en" "chunk one").get? 0
      = (luhnScores Tcommon "en" "chunk two").get? 0 :=
  ⟨rfl, claim9_chunk_blind_scores Tcommon "en" "chunk one" "chunk two" 0 0 "common" rfl rfl⟩

/-- Claim C10: for an accepted `.txt` file none of whose lines decodes to
non-whitespace text under any tried encoding (each attempt either fails
recoverably or strips to blank), the sampler returns no line, and
`process_file` prints the resulting error (the `TypeError` raised by the
language detector on `None`) and finishes without writing any output
file. -/
theorem claim10_blank_file (T : Toolkit) (env : PyEnv) (path : String) (bls : List (List Nat))
    (hf : env.files.lookup path = some bls) (hext : allowedExtension path = true)
    (hblank : ∀ bs ∈ bls, ∀ enc ∈ encsFor env bs, blankOutcome (pyDecode env enc bs) = true) :
    (getFirstLine env bls).2 = .ok none ∧
    (processFile T env path).2 = none ∧
    errMsg .typeErrorDetectNone ∈ (processFile T env path).1 := by
  have hg := getFirstLine_blank env bls hblank
  have ha : processFileAttempt T env path
      = ((getFirstLine env bls).1, .error .typeErrorDetectNone) := by
    simp [processFileAttempt, hf, hext, hg, getMessageLang]
  have hp : processFile T env path
      = ((getFirstLine env bls).1 ++ [errMsg .typeErrorDetectNone], none) := by
    simp [processFile, ha]
  refine ⟨hg, ?_, ?_⟩
  · rw [hp]
  · rw [hp]
    simp

/-- Witness for C10: a one-line file holding only a newline byte. -/
theorem claim10_witness :
    (processFile Ttriv envBlank "b.txt").2 = none ∧
    errMsg .typeErrorDetectNone ∈ (processFile Ttriv envBlank "b.txt").1 := by
  have h := claim10_blank_file Ttriv envBlank "b.txt" [[10]] rfl (by decide) (by decide)
  exact ⟨h.2.1, h.2.2⟩

end Summarizer
